import Mathlib

/-!
Verification development for the ewouldblock fault-injection engine
(src/engines/ewouldblock_engine/ewouldblock_engine.cc).

The shim wraps a real storage engine and injects errors on individual
operations.  We shallowly embed the parts of the code the properties talk
about: the fault-injection strategies (`FaultInjectMode`), the injection
gate (`EWB_Engine.should_inject_error`), the suspension manager
(`suspend` / `resume` / `is_connection_suspended` / `handleResume`), the
pending-notification queue (`schedule_notification`), and the synthetic
DCP stream (`EWB_Engine.stream_req` / `EWB_Engine.step`).

Modelling conventions:
- cookies and connection ids are `Nat` (they are opaque pointers / 64-bit
  ids in the code);
- the `std::map`s (`connection_map`, `suspended_map`, `dcp_stream`) become
  association lists whose keys are unique in any reachable state (a
  `std::map` cannot hold duplicate keys); lemmas that need uniqueness take
  it as a `Nodup` hypothesis;
- the `std::queue` of pending notifications becomes a list used FIFO
  (push = append at the back);
- the `std::uniform_int_distribution<uint32_t> dis(1, 100)` draw in
  `ErrRandom::should_inject_error` is passed in as an explicit `draw`
  argument, one per gated call;
- the in/out parameter `ENGINE_ERROR_CODE& err` becomes an explicit input
  returned (possibly updated) in the result triple.
-/

set_option maxHeartbeats 1000000

/-- Engine error codes (the subset of `ENGINE_ERROR_CODE` the shim uses). -/
inductive ENGINE_ERROR_CODE where
  | ENGINE_SUCCESS
  | ENGINE_EWOULDBLOCK
  | ENGINE_KEY_EEXISTS
  | ENGINE_KEY_ENOENT
  | ENGINE_EINVAL
  | ENGINE_ROLLBACK
  | ENGINE_ENOTSUP
  | ENGINE_FAILED
  | ENGINE_ENOMEM
  deriving DecidableEq, Repr

/-- Operation kinds distinguished by the gate (enum class `Cmd` in `EWB_Engine`). -/
inductive Cmd where
  | NONE
  | GET_INFO
  | ALLOCATE
  | REMOVE
  | GET
  | STORE
  | CAS
  | ARITHMETIC
  | LOCK
  | UNLOCK
  | FLUSH
  | GET_STATS
  | GET_META
  | UNKNOWN_COMMAND
  deriving DecidableEq, Repr

/-- Fault injection modes, one constructor per subclass of
`EWB_Engine::FaultInjectMode`, each carrying its mutable state.
`CASMismatch` has its injected error fixed to `ENGINE_KEY_EEXISTS` by its
constructor, so it carries only its count. -/
inductive FaultInjectMode where
  | ErrOnFirst (injected_error : ENGINE_ERROR_CODE) (prev_cmd : Cmd)
  | ErrOnNextN (injected_error : ENGINE_ERROR_CODE) (count : Nat)
  | ErrRandom (injected_error : ENGINE_ERROR_CODE) (percentage_to_err : Nat)
  | ErrSequence (injected_error : ENGINE_ERROR_CODE) (sequence : Nat) (pos : Nat)
  | ErrOnNoNotify (injected_error : ENGINE_ERROR_CODE) (issued_return_error : Bool)
  | CASMismatch (count : Nat)
  deriving DecidableEq, Repr

/-- Step of a fault-injection mode: `should_inject_error(cmd, err)` of each
subclass, with the RNG draw (`dis(gen)`, uniform on 1..100, used only by
`ErrRandom`) explicit, and the in/out `err` made a value.  Returns
(injected?, final value of `err`, state of the mode after the call). -/
def FaultInjectMode.should_inject_error (m : FaultInjectMode) (cmd : Cmd)
    (draw : Nat) (err : ENGINE_ERROR_CODE) :
    Bool × ENGINE_ERROR_CODE × FaultInjectMode :=
  match m with
  | .ErrOnFirst ie prev =>
      -- inject = (prev_cmd != cmd); prev_cmd = cmd
      if prev ≠ cmd then (true, ie, .ErrOnFirst ie cmd)
      else (false, err, .ErrOnFirst ie cmd)
  | .ErrOnNextN ie count =>
      if count > 0 then (true, ie, .ErrOnNextN ie (count - 1))
      else (false, err, .ErrOnNextN ie count)
  | .ErrRandom ie pct =>
      if draw < pct then (true, ie, .ErrRandom ie pct)
      else (false, err, .ErrRandom ie pct)
  | .ErrSequence ie seq pos =>
      if pos < 32 then
        if Nat.testBit seq pos then (true, ie, .ErrSequence ie seq (pos + 1))
        else (false, err, .ErrSequence ie seq (pos + 1))
      else (false, err, .ErrSequence ie seq pos)
  | .ErrOnNoNotify ie issued =>
      if issued = false then (true, ie, .ErrOnNoNotify ie true)
      else (false, err, .ErrOnNoNotify ie issued)
  | .CASMismatch count =>
      if cmd = Cmd.CAS ∧ count > 0 then
        (true, .ENGINE_KEY_EEXISTS, .CASMismatch (count - 1))
      else (false, err, .CASMismatch count)

/-- Virtual `add_to_pending_io_ops()`: true for every mode except
`ErrOnNoNotify`, which overrides it to return false. -/
def FaultInjectMode.add_to_pending_io_ops : FaultInjectMode → Bool
  | .ErrOnNoNotify _ _ => false
  | _ => true

/-- Trace of inject decisions of one mode over a list of gated calls, each
call given as (operation kind, RNG draw).  Every call starts with
`err = ENGINE_SUCCESS`, as all engine entry points in the code do. -/
def runInjector : FaultInjectMode → List (Cmd × Nat) → List (Bool × ENGINE_ERROR_CODE)
  | _, [] => []
  | m, c :: rest =>
      let r := m.should_inject_error c.1 c.2 .ENGINE_SUCCESS
      (r.1, r.2.1) :: runInjector r.2.2 rest

/-- Lookup in an association list keyed by `Nat` (models `std::map::find`,
returning the mapped value of the first entry with the given key). -/
def alookup {α : Type} (k : Nat) : List (Nat × α) → Option α
  | [] => none
  | e :: rest => if e.1 = k then some e.2 else alookup k rest

/-- Erase the first entry with the given key (models `map::erase(iter)`;
keys are unique in a `std::map`, so at most one entry can match). -/
def aerase {α : Type} (k : Nat) : List (Nat × α) → List (Nat × α)
  | [] => []
  | e :: rest => if e.1 = k then rest else e :: aerase k rest

/-- Replace in place the value of the first entry with the given key
(models mutating `iter->second` of a found `std::map` iterator). -/
def aupdate {α : Type} (k : Nat) (v : α) : List (Nat × α) → List (Nat × α)
  | [] => []
  | e :: rest => if e.1 = k then (k, v) :: rest else e :: aupdate k v rest

/-- State of the shim relevant to injection, suspension, notification and
the synthetic DCP stream:
`connection_map : id → (cookie, mode)`, `suspended_map : token → cookie`,
`pending_io_ops` the FIFO of cookies awaiting a notification, and
`dcp_stream : cookie → (stream started?, remaining count)`. -/
structure EWBState where
  connection_map : List (Nat × (Nat × FaultInjectMode))
  suspended_map : List (Nat × Nat)
  pending_io_ops : List Nat
  dcp_stream : List (Nat × (Bool × Nat))
  deriving DecidableEq, Repr

/-- Linear scan of `suspended_map` for the cookie
(`EWB_Engine::is_connection_suspended`). -/
def EWB_Engine.is_connection_suspended (s : EWBState) (cookie : Nat) : Bool :=
  s.suspended_map.any (fun c => c.2 = cookie)

/-- Push the cookie on the pending-notification FIFO
(`EWB_Engine::schedule_notification`; the condvar signal has no effect on
the queue contents). -/
def EWB_Engine.schedule_notification (s : EWBState) (cookie : Nat) : EWBState :=
  { s with pending_io_ops := s.pending_io_ops ++ [cookie] }

/-- Injection gate `EWB_Engine::should_inject_error`.  `id` is
`get_connection_id(cookie)`; `draw` is the RNG draw forwarded to the mode;
`err` is the caller's in/out error variable (always `ENGINE_SUCCESS` on
entry in the code).  Returns (injected?, final `err`, state after). -/
def EWB_Engine.should_inject_error (s : EWBState) (cmd : Cmd) (id cookie draw : Nat)
    (err : ENGINE_ERROR_CODE) : Bool × ENGINE_ERROR_CODE × EWBState :=
  if EWB_Engine.is_connection_suspended s cookie then
    (true, .ENGINE_EWOULDBLOCK, s)
  else
    match alookup id s.connection_map with
    | none => (false, err, s)
    | some e =>
        if e.1 ≠ cookie then
          -- The cookie is different so it represents a different command:
          -- drop the stale entry and pass through.
          (false, err, { s with connection_map := aerase id s.connection_map })
        else
          let r := e.2.should_inject_error cmd draw err
          let add := e.2.add_to_pending_io_ops
          let s' := { s with connection_map := aupdate id (cookie, r.2.2) s.connection_map }
          if r.1 ∧ r.2.1 = .ENGINE_EWOULDBLOCK ∧ add = true then
            (r.1, r.2.1, EWB_Engine.schedule_notification s' cookie)
          else
            (r.1, r.2.1, s')

/-- Register a suspension (`EWB_Engine::suspend`): fails if the token is
already taken, otherwise maps the token to the cookie. -/
def EWB_Engine.suspend (s : EWBState) (cookie : Nat) (id : Nat) : Bool × EWBState :=
  match alookup id s.suspended_map with
  | none => (true, { s with suspended_map := (id, cookie) :: s.suspended_map })
  | some _ => (false, s)

/-- Resume a suspension token (`EWB_Engine::resume`): if registered, erase
the entry and schedule one notification for the stored cookie. -/
def EWB_Engine.resume (s : EWBState) (id : Nat) : Bool × EWBState :=
  match alookup id s.suspended_map with
  | none => (false, s)
  | some cookie =>
      (true, EWB_Engine.schedule_notification
               { s with suspended_map := aerase id s.suspended_map } cookie)

/-- Control-channel resume handler (`EWB_Engine::handleResume`): replies
success when `resume` succeeds, `ENGINE_EINVAL` otherwise. -/
def EWB_Engine.handleResume (s : EWBState) (id : Nat) : ENGINE_ERROR_CODE × EWBState :=
  let r := EWB_Engine.resume s id
  if r.1 then (.ENGINE_SUCCESS, r.2) else (.ENGINE_EINVAL, r.2)

/-- Result of one `EWB_Engine::step` call on the DCP interface, abstracting
what the code does: emit the canned mutation via the producers, return
`ENGINE_EWOULDBLOCK`, `ENGINE_ENOTSUP`, or forward to the wrapped engine. -/
inductive StepResult where
  | mutation
  | wouldBlock
  | notSupported
  | passThrough
  deriving DecidableEq, Repr

/-- One `EWB_Engine::step` call.  For a cookie with a synthetic stream
entry: if started and the count is positive, emit the canned mutation and
decrement the count; otherwise return would-block.  Without an entry the
call forwards to the wrapped DCP engine if there is one (`hasDcp`). -/
def EWB_Engine.step (s : EWBState) (cookie : Nat) (hasDcp : Bool) :
    StepResult × EWBState :=
  match alookup cookie s.dcp_stream with
  | some e =>
      if e.1 = true ∧ e.2 > 0 then
        (.mutation, { s with dcp_stream := aupdate cookie (e.1, e.2 - 1) s.dcp_stream })
      else (.wouldBlock, s)
  | none => if hasDcp then (.passThrough, s) else (.notSupported, s)

/-- Trace of `k` consecutive `step` calls for one cookie. -/
def runSteps (s : EWBState) (cookie : Nat) (hasDcp : Bool) : Nat → List StepResult
  | 0 => []
  | k + 1 =>
      let r := EWB_Engine.step s cookie hasDcp
      r.1 :: runSteps r.2 cookie hasDcp k

/-- One `EWB_Engine::stream_req` call for a cookie.  On a synthetic stream
entry: a requested start sequence of 1 replies rollback (with the out
parameter `rollback_seqno` set to 0) and leaves the entry alone; any other
start sequence marks the stream started and replies success.  Without an
entry the call forwards (or `ENGINE_ENOTSUP` with no wrapped DCP engine) —
we only model the synthetic branch and report the forwarding outcome.
Returns (return code, rollback_seqno out-param when written, state after). -/
def EWB_Engine.stream_req (s : EWBState) (cookie : Nat) (start_seqno : Nat)
    (hasDcp : Bool) : ENGINE_ERROR_CODE × Option Nat × EWBState :=
  match alookup cookie s.dcp_stream with
  | some e =>
      if start_seqno = 1 then (.ENGINE_ROLLBACK, some 0, s)
      else (.ENGINE_SUCCESS, none,
            { s with dcp_stream := aupdate cookie (true, e.2) s.dcp_stream })
  | none =>
      if hasDcp then (.ENGINE_SUCCESS, none, s) else (.ENGINE_ENOTSUP, none, s)

/-! Helper lemmas about the association-list operations. -/

theorem alookup_eq_none_of_not_mem_keys {α : Type} {k : Nat} {l : List (Nat × α)}
    (h : k ∉ l.map Prod.fst) : alookup k l = none := by
  induction l with
  | nil => rfl
  | cons e rest ih =>
      simp only [List.map_cons, List.mem_cons, not_or] at h
      have hk : ¬ e.1 = k := fun hk => h.1 hk.symm
      simp only [alookup, if_neg hk]
      exact ih h.2

theorem alookup_aerase_self {α : Type} {k : Nat} {l : List (Nat × α)}
    (h : (l.map Prod.fst).Nodup) : alookup k (aerase k l) = none := by
  induction l with
  | nil => rfl
  | cons e rest ih =>
      simp only [List.map_cons, List.nodup_cons] at h
      by_cases hk : e.1 = k
      · simp only [aerase, if_pos hk]
        exact alookup_eq_none_of_not_mem_keys (hk ▸ h.1)
      · simp only [aerase, if_neg hk, alookup, if_neg hk]
        exact ih h.2

theorem mem_of_alookup_eq_some {α : Type} {k : Nat} {v : α} {l : List (Nat × α)}
    (h : alookup k l = some v) : (k, v) ∈ l := by
  induction l with
  | nil => simp [alookup] at h
  | cons e rest ih =>
      obtain ⟨e1, e2⟩ := e
      by_cases hk : e1 = k
      · subst hk
        simp only [alookup, if_pos rfl] at h
        injection h with h2
        subst h2
        exact List.mem_cons_self _ _
      · simp only [alookup, if_neg hk] at h
        exact List.mem_cons_of_mem _ (ih h)

theorem alookup_eq_some_of_mem_nodup {α : Type} {k : Nat} {v : α} {l : List (Nat × α)}
    (hn : (l.map Prod.fst).Nodup) (h : (k, v) ∈ l) : alookup k l = some v := by
  induction l with
  | nil => simp at h
  | cons e rest ih =>
      simp only [List.map_cons, List.nodup_cons] at hn
      rcases List.mem_cons.1 h with he | hm
      · subst he
        simp [alookup]
      · have hk : e.1 ≠ k := by
          intro hk
          exact hn.1 (hk ▸ List.mem_map_of_mem Prod.fst hm)
        simp only [alookup, if_neg hk]
        exact ih hn.2 hm

theorem alookup_aupdate_self {α : Type} {k : Nat} (v : α) {w : α} {l : List (Nat × α)}
    (h : alookup k l = some w) : alookup k (aupdate k v l) = some v := by
  induction l with
  | nil => simp [alookup] at h
  | cons e rest ih =>
      by_cases hk : e.1 = k
      · simp [aupdate, if_pos hk, alookup]
      · simp only [alookup, if_neg hk] at h
        simp only [aupdate, if_neg hk, alookup, if_neg hk]
        exact ih h

/-! Single-call equations for the individual fault-injection modes, and a
cons-unfolding equation for `runInjector`. -/

theorem runInjector_cons (m : FaultInjectMode) (c : Cmd × Nat)
    (rest : List (Cmd × Nat)) :
    runInjector m (c :: rest) =
      ((m.should_inject_error c.1 c.2 .ENGINE_SUCCESS).1,
       (m.should_inject_error c.1 c.2 .ENGINE_SUCCESS).2.1) ::
        runInjector (m.should_inject_error c.1 c.2 .ENGINE_SUCCESS).2.2 rest := rfl

theorem errOnNextN_step_pos (e : ENGINE_ERROR_CODE) (n : Nat) (hn : 0 < n)
    (cmd : Cmd) (draw : Nat) (err : ENGINE_ERROR_CODE) :
    FaultInjectMode.should_inject_error (.ErrOnNextN e n) cmd draw err =
      (true, e, .ErrOnNextN e (n - 1)) := by
  simp [FaultInjectMode.should_inject_error, hn]

theorem errOnNextN_step_zero (e : ENGINE_ERROR_CODE) (n : Nat) (hn : ¬ 0 < n)
    (cmd : Cmd) (draw : Nat) (err : ENGINE_ERROR_CODE) :
    FaultInjectMode.should_inject_error (.ErrOnNextN e n) cmd draw err =
      (false, err, .ErrOnNextN e n) := by
  simp [FaultInjectMode.should_inject_error, hn]

theorem errOnFirst_step_eq (e : ENGINE_ERROR_CODE) (p cmd : Cmd) (h : p = cmd)
    (draw : Nat) (err : ENGINE_ERROR_CODE) :
    FaultInjectMode.should_inject_error (.ErrOnFirst e p) cmd draw err =
      (false, err, .ErrOnFirst e cmd) := by
  simp [FaultInjectMode.should_inject_error, h]

theorem errOnFirst_step_ne (e : ENGINE_ERROR_CODE) (p cmd : Cmd) (h : p ≠ cmd)
    (draw : Nat) (err : ENGINE_ERROR_CODE) :
    FaultInjectMode.should_inject_error (.ErrOnFirst e p) cmd draw err =
      (true, e, .ErrOnFirst e cmd) := by
  simp [FaultInjectMode.should_inject_error, h]

theorem errSequence_step_low (e : ENGINE_ERROR_CODE) (mask pos : Nat)
    (hp : pos < 32) (cmd : Cmd) (draw : Nat) (err : ENGINE_ERROR_CODE) :
    FaultInjectMode.should_inject_error (.ErrSequence e mask pos) cmd draw err =
      (if Nat.testBit mask pos then (true, e, .ErrSequence e mask (pos + 1))
       else (false, err, .ErrSequence e mask (pos + 1))) := by
  simp [FaultInjectMode.should_inject_error, hp]

theorem errSequence_step_high (e : ENGINE_ERROR_CODE) (mask pos : Nat)
    (hp : ¬ pos < 32) (cmd : Cmd) (draw : Nat) (err : ENGINE_ERROR_CODE) :
    FaultInjectMode.should_inject_error (.ErrSequence e mask pos) cmd draw err =
      (false, err, .ErrSequence e mask pos) := by
  simp [FaultInjectMode.should_inject_error, hp]

/-- Range/map unfolding used to reason index-wise about decision traces. -/
theorem range_map_succ {β : Type} (f : Nat → β) (n : Nat) :
    (List.range (n + 1)).map f = f 0 :: (List.range n).map (fun i => f (i + 1)) := by
  rw [List.range_succ_eq_map, List.map_cons, List.map_map]
  rfl

/-! Trace lemmas for the individual fault-injection modes. -/

theorem errOnNextN_trace (e : ENGINE_ERROR_CODE) (n : Nat) (calls : List (Cmd × Nat)) :
    runInjector (.ErrOnNextN e n) calls =
      (List.range calls.length).map
        (fun i => if i < n then (true, e) else (false, .ENGINE_SUCCESS)) := by
  induction calls generalizing n with
  | nil => rfl
  | cons hd tl ih =>
      rw [List.length_cons, range_map_succ]
      by_cases hn : 0 < n
      · rw [runInjector_cons, errOnNextN_step_pos e n hn, ih]
        congr 1
        · rw [if_pos hn]
        · apply List.map_congr_left
          intro a _
          split_ifs with h1 h2 <;> first | rfl | (exfalso; omega)
      · rw [runInjector_cons, errOnNextN_step_zero e n hn, ih]
        congr 1
        · rw [if_neg hn]
        · apply List.map_congr_left
          intro a _
          split_ifs with h1 h2 <;> first | rfl | (exfalso; omega)

theorem errOnFirst_trace (e : ENGINE_ERROR_CODE) (p : Cmd) (calls : List (Cmd × Nat)) :
    runInjector (.ErrOnFirst e p) calls =
      List.zipWith
        (fun c q => if c.1 = q then ((false : Bool), ENGINE_ERROR_CODE.ENGINE_SUCCESS)
                    else (true, e))
        calls (p :: calls.map Prod.fst) := by
  induction calls generalizing p with
  | nil => rfl
  | cons hd tl ih =>
      rw [List.map_cons, List.zipWith_cons_cons]
      by_cases hc : hd.1 = p
      · rw [runInjector_cons, errOnFirst_step_eq e p hd.1 hc.symm, ih, if_pos hc]
      · rw [runInjector_cons, errOnFirst_step_ne e p hd.1 (fun h => hc h.symm), ih,
            if_neg hc]

theorem errSequence_trace (e : ENGINE_ERROR_CODE) (mask pos : Nat)
    (calls : List (Cmd × Nat)) :
    runInjector (.ErrSequence e mask pos) calls =
      (List.range calls.length).map
        (fun i => if pos + i < 32 ∧ Nat.testBit mask (pos + i) then (true, e)
                  else (false, .ENGINE_SUCCESS)) := by
  induction calls generalizing pos with
  | nil => rfl
  | cons hd tl ih =>
      rw [List.length_cons, range_map_succ]
      by_cases hp : pos < 32
      · by_cases hb : Nat.testBit mask pos
        · rw [runInjector_cons, errSequence_step_low e mask pos hp, if_pos hb, ih]
          congr 1
          · rw [if_pos ⟨by omega, by simpa using hb⟩]
          · apply List.map_congr_left
            intro a _
            have hx : pos + 1 + a = pos + (a + 1) := by omega
            rw [hx]
        · rw [runInjector_cons, errSequence_step_low e mask pos hp, if_neg hb, ih]
          congr 1
          · rw [if_neg]
            rintro ⟨-, hbit⟩
            exact hb (by simpa using hbit)
          · apply List.map_congr_left
            intro a _
            have hx : pos + 1 + a = pos + (a + 1) := by omega
            rw [hx]
      · rw [runInjector_cons, errSequence_step_high e mask pos hp, ih]
        congr 1
        · rw [if_neg]
          rintro ⟨hlt, -⟩
          omega
        · apply List.map_congr_left
          intro a _
          rw [if_neg, if_neg]
          · rintro ⟨hlt, -⟩
            omega
          · rintro ⟨hlt, -⟩
            omega

theorem casMismatch_step_pos (n : Nat) (hn : 0 < n) (cmd : Cmd) (hc : cmd = Cmd.CAS)
    (draw : Nat) (err : ENGINE_ERROR_CODE) :
    FaultInjectMode.should_inject_error (.CASMismatch n) cmd draw err =
      (true, .ENGINE_KEY_EEXISTS, .CASMismatch (n - 1)) := by
  simp [FaultInjectMode.should_inject_error, hc, hn]

theorem casMismatch_step_zero (n : Nat) (hn : ¬ 0 < n) (cmd : Cmd)
    (draw : Nat) (err : ENGINE_ERROR_CODE) :
    FaultInjectMode.should_inject_error (.CASMismatch n) cmd draw err =
      (false, err, .CASMismatch n) := by
  simp [FaultInjectMode.should_inject_error, hn]

theorem casMismatch_step_noncas (n : Nat) (cmd : Cmd) (hc : cmd ≠ Cmd.CAS)
    (draw : Nat) (err : ENGINE_ERROR_CODE) :
    FaultInjectMode.should_inject_error (.CASMismatch n) cmd draw err =
      (false, err, .CASMismatch n) := by
  simp [FaultInjectMode.should_inject_error, hc]

/-- Restriction of a `CASMismatch` decision trace to the CAS calls equals the
`ErrOnNextN` (key-exists) trace on the CAS subsequence of the calls. -/
theorem casMismatch_filter_trace (n : Nat) (calls : List (Cmd × Nat)) :
    ((calls.zip (runInjector (.CASMismatch n) calls)).filter
        (fun p => decide (p.1.1 = Cmd.CAS))).map Prod.snd =
      runInjector (.ErrOnNextN .ENGINE_KEY_EEXISTS n)
        (calls.filter (fun c => decide (c.1 = Cmd.CAS))) := by
  induction calls generalizing n with
  | nil => rfl
  | cons hd tl ih =>
      rw [runInjector_cons]
      by_cases hc : hd.1 = Cmd.CAS
      · by_cases hn : 0 < n
        · rw [casMismatch_step_pos n hn hd.1 hc]
          simp [hc, ih, runInjector_cons, errOnNextN_step_pos _ n hn]
        · rw [casMismatch_step_zero n hn hd.1]
          simp [hc, ih, runInjector_cons, errOnNextN_step_zero _ n hn]
      · rw [casMismatch_step_noncas n hd.1 hc]
        simp [hc, ih]

/-- C2: for every installed ErrOnNextN(n) injector with injected error `e`,
the decision trace over any sequence of gated calls injects `e` on exactly
the first n calls and passes through (no injection, untouched
`ENGINE_SUCCESS` error variable) on the (n+1)-th and every later call. -/
theorem C2_errOnNextN_first_n (e : ENGINE_ERROR_CODE) (n : Nat)
    (calls : List (Cmd × Nat)) :
    runInjector (.ErrOnNextN e n) calls =
      (List.range calls.length).map
        (fun i => if i < n then (true, e) else (false, .ENGINE_SUCCESS)) :=
  errOnNextN_trace e n calls

/-- C3 counterexample: with ErrOnFirst installed, the call sequence
GET, STORE, GET injects on all three calls; in particular the third call is
a repeat of a kind (GET) already seen on the connection, with another kind
interleaved, yet it still injects — refuting the claim that any repeated
call of a kind already seen passes through. -/
theorem C3_counterexample :
    runInjector (.ErrOnFirst .ENGINE_EWOULDBLOCK Cmd.NONE)
        [(Cmd.GET, 0), (Cmd.STORE, 0), (Cmd.GET, 0)] =
      [(true, .ENGINE_EWOULDBLOCK), (true, .ENGINE_EWOULDBLOCK),
       (true, .ENGINE_EWOULDBLOCK)] := by
  decide

/-- C3 (amended): ErrOnFirst tracks only the last-seen operation kind: a
gated call injects iff its kind differs from the kind of the immediately
preceding gated call (the first call compares against the initial NONE
marker, so every first call of a real kind injects); only an immediately
repeated kind passes through. -/
theorem C3_errOnFirst_last_kind (e : ENGINE_ERROR_CODE) (calls : List (Cmd × Nat)) :
    runInjector (.ErrOnFirst e Cmd.NONE) calls =
      List.zipWith
        (fun c q => if c.1 = q then ((false : Bool), ENGINE_ERROR_CODE.ENGINE_SUCCESS)
                    else (true, e))
        calls (Cmd.NONE :: calls.map Prod.fst) :=
  errOnFirst_trace e Cmd.NONE calls

/-- C4: for every installed ErrSequence(mask) injector, the decision of the
call at 0-based position i equals bit i of the 32-bit mask (LSB first) for
i < 32, and every call from position 32 on passes through. -/
theorem C4_errSequence_mask_bits (e : ENGINE_ERROR_CODE) (mask : Nat)
    (calls : List (Cmd × Nat)) :
    runInjector (.ErrSequence e mask 0) calls =
      (List.range calls.length).map
        (fun i => if i < 32 ∧ Nat.testBit mask i then (true, e)
                  else (false, .ENGINE_SUCCESS)) := by
  rw [errSequence_trace]
  apply List.map_congr_left
  intro a _
  simp

/-- C5: a CasMismatch(n) injector never affects a gated operation whose kind
is not CAS (the decision is pass-through and the injector state is
unchanged), and its decision trace restricted to the CAS calls of any mixed
call sequence equals the ErrOnNextN(n) trace with error key-exists on the
CAS subsequence: the first n CAS calls inject ENGINE_KEY_EEXISTS and later
CAS calls pass through. -/
theorem C5_casMismatch_refines_errOnNextN (n : Nat) (calls : List (Cmd × Nat))
    (cmd : Cmd) (draw : Nat) (err : ENGINE_ERROR_CODE) :
    (cmd ≠ Cmd.CAS →
        FaultInjectMode.should_inject_error (.CASMismatch n) cmd draw err =
          (false, err, .CASMismatch n)) ∧
    ((calls.zip (runInjector (.CASMismatch n) calls)).filter
          (fun p => decide (p.1.1 = Cmd.CAS))).map Prod.snd =
      runInjector (.ErrOnNextN .ENGINE_KEY_EEXISTS n)
        (calls.filter (fun c => decide (c.1 = Cmd.CAS))) :=
  ⟨fun hc => casMismatch_step_noncas n cmd hc draw err,
   casMismatch_filter_trace n calls⟩

/-- C5 witness: the spec's scenario 2 — CasMismatch(3) over
STORE, CAS, CAS, CAS, CAS — instantiated through the theorem. -/
theorem C5_witness :
    FaultInjectMode.should_inject_error (.CASMismatch 3) Cmd.GET 0 .ENGINE_SUCCESS =
      (false, .ENGINE_SUCCESS, .CASMismatch 3) ∧
    (([(Cmd.STORE, 0), (Cmd.CAS, 0), (Cmd.CAS, 0), (Cmd.CAS, 0), (Cmd.CAS, 0)].zip
        (runInjector (.CASMismatch 3)
          [(Cmd.STORE, 0), (Cmd.CAS, 0), (Cmd.CAS, 0), (Cmd.CAS, 0), (Cmd.CAS, 0)])).filter
        (fun p => decide (p.1.1 = Cmd.CAS))).map Prod.snd =
      runInjector (.ErrOnNextN .ENGINE_KEY_EEXISTS 3)
        ([(Cmd.STORE, 0), (Cmd.CAS, 0), (Cmd.CAS, 0), (Cmd.CAS, 0), (Cmd.CAS, 0)].filter
          (fun c => decide (c.1 = Cmd.CAS))) := by
  have h := C5_casMismatch_refines_errOnNextN 3
    [(Cmd.STORE, 0), (Cmd.CAS, 0), (Cmd.CAS, 0), (Cmd.CAS, 0), (Cmd.CAS, 0)]
    Cmd.GET 0 .ENGINE_SUCCESS
  exact ⟨h.1 (by decide), h.2⟩

/-- C6 counterexample: with ErrRandom(p = 100) installed, the RNG outcome
100 — one of the 100 equally likely values of
`uniform_int_distribution(1, 100)` — does not inject, because the code
tests `dis(gen) < percentage_to_err` strictly; this refutes the claim that
with p = 100 every gated call injects. -/
theorem C6_counterexample :
    ((FaultInjectMode.ErrRandom .ENGINE_EWOULDBLOCK 100).should_inject_error
        Cmd.GET 100 .ENGINE_SUCCESS).1 = false := by
  decide

/-- C6 (amended): for every p in 1..100, ErrRandom(p) injects on a gated
call iff the uniform draw from 1..100 is strictly below p; hence exactly
p - 1 of the 100 equally likely outcomes cause injection (with p = 100,
99 of the 100 outcomes inject, and with p = 1 none do). -/
theorem C6_errRandom_draw_lt (e : ENGINE_ERROR_CODE) (p : Nat)
    (hp1 : 1 ≤ p) (hp2 : p ≤ 100) (cmd : Cmd) (draw : Nat)
    (err : ENGINE_ERROR_CODE) :
    (((FaultInjectMode.ErrRandom e p).should_inject_error cmd draw err).1 =
        decide (draw < p)) ∧
    ((Finset.Icc 1 100).filter
        (fun d => (((FaultInjectMode.ErrRandom e p).should_inject_error
            cmd d err).1 = true))).card = p - 1 := by
  constructor
  · by_cases h : draw < p <;> simp [FaultInjectMode.should_inject_error, h]
  · have hset : ((Finset.Icc 1 100).filter
        (fun d => (((FaultInjectMode.ErrRandom e p).should_inject_error
            cmd d err).1 = true))) = Finset.Icc 1 (p - 1) := by
      ext d
      have hd : (((FaultInjectMode.ErrRandom e p).should_inject_error
          cmd d err).1 = true) ↔ d < p := by
        by_cases h : d < p <;> simp [FaultInjectMode.should_inject_error, h]
      simp only [Finset.mem_filter, Finset.mem_Icc, hd]
      omega
    rw [hset, Nat.card_Icc]
    omega

/-- C6 witness: the amended theorem instantiated at p = 100 and draw = 100:
the decision equals `decide (100 < 100) = false` and exactly 99 of the 100
outcomes inject. -/
theorem C6_witness :
    (((FaultInjectMode.ErrRandom .ENGINE_EWOULDBLOCK 100).should_inject_error
        Cmd.GET 100 .ENGINE_SUCCESS).1 = decide (100 < 100)) ∧
    ((Finset.Icc 1 100).filter
        (fun d => (((FaultInjectMode.ErrRandom .ENGINE_EWOULDBLOCK 100).should_inject_error
            Cmd.GET d .ENGINE_SUCCESS).1 = true))).card = 99 := by
  have h := C6_errRandom_draw_lt .ENGINE_EWOULDBLOCK 100 (by decide) (by decide)
    Cmd.GET 100 .ENGINE_SUCCESS
  exact ⟨h.1, h.2.trans (by decide)⟩

/-- C1: an explicit suspension dominates everything in the gate: while some
token maps to a cookie, every gated operation on that cookie returns
(inject, ENGINE_EWOULDBLOCK) with the whole state — in particular the
pending-notification queue — unchanged; resuming a token that maps to a
cookie removes that mapping and appends exactly one notification for the
cookie; and a cookie is suspended iff at least one token maps to it. -/
theorem C1_suspension_dominates
    (s : EWBState) (cmd : Cmd) (id cookie draw t : Nat) (err : ENGINE_ERROR_CODE)
    (hnodup : (s.suspended_map.map Prod.fst).Nodup) :
    (EWB_Engine.is_connection_suspended s cookie = true →
        EWB_Engine.should_inject_error s cmd id cookie draw err =
          (true, .ENGINE_EWOULDBLOCK, s)) ∧
    (alookup t s.suspended_map = some cookie →
        EWB_Engine.resume s t =
          (true, { s with suspended_map := aerase t s.suspended_map,
                          pending_io_ops := s.pending_io_ops ++ [cookie] }) ∧
        alookup t (EWB_Engine.resume s t).2.suspended_map = none) ∧
    (EWB_Engine.is_connection_suspended s cookie = true ↔
        ∃ u, alookup u s.suspended_map = some cookie) := by
  refine ⟨?_, ?_, ?_⟩
  · intro h
    simp [EWB_Engine.should_inject_error, h]
  · intro h
    constructor
    · simp [EWB_Engine.resume, h, EWB_Engine.schedule_notification]
    · simp [EWB_Engine.resume, h, EWB_Engine.schedule_notification]
      exact alookup_aerase_self hnodup
  · constructor
    · intro h
      obtain ⟨u, hm, hu⟩ := List.any_eq_true.1 h
      have hc : u.2 = cookie := by simpa using hu
      refine ⟨u.1, ?_⟩
      have hmem : (u.1, cookie) ∈ s.suspended_map := by
        rw [← hc]
        exact hm
      exact alookup_eq_some_of_mem_nodup hnodup hmem
    · rintro ⟨u, hu⟩
      exact List.any_eq_true.2 ⟨(u, cookie), mem_of_alookup_eq_some hu, by simp⟩

/-- C1 witness: cookie 5 suspended under token 7: a GET returns would-block
leaving the state untouched, resume removes the mapping and enqueues one
notification, and the cookie reads as suspended. -/
theorem C1_witness :
    EWB_Engine.should_inject_error ⟨[], [(7, 5)], [], []⟩ Cmd.GET 1 5 0 .ENGINE_SUCCESS =
      (true, .ENGINE_EWOULDBLOCK, ⟨[], [(7, 5)], [], []⟩) ∧
    EWB_Engine.resume ⟨[], [(7, 5)], [], []⟩ 7 = (true, ⟨[], [], [5], []⟩) ∧
    EWB_Engine.is_connection_suspended ⟨[], [(7, 5)], [], []⟩ 5 = true := by
  have h := C1_suspension_dominates ⟨[], [(7, 5)], [], []⟩ Cmd.GET 1 5 0 7
    .ENGINE_SUCCESS (by decide)
  refine ⟨h.1 (by decide), ?_, ?_⟩
  · exact ((h.2.1 (by decide)).1).trans (by decide)
  · exact h.2.2.mpr ⟨7, by decide⟩

/-- C7 counterexample: resuming a token with no registered suspension makes
`handleResume` return ENGINE_EINVAL (invalid-argument), not the not-found
error ENGINE_KEY_ENOENT the claim promises. -/
theorem C7_counterexample :
    EWB_Engine.handleResume ⟨[], [], [], []⟩ 7 = (.ENGINE_EINVAL, ⟨[], [], [], []⟩) ∧
    ENGINE_ERROR_CODE.ENGINE_EINVAL ≠ ENGINE_ERROR_CODE.ENGINE_KEY_ENOENT := by
  decide

/-- C7 (amended): `handleResume(t)` either succeeds — when some cookie is
registered under t it removes the entry, enqueues exactly one notification
for that cookie and replies ENGINE_SUCCESS — or returns ENGINE_EINVAL
(invalid-argument, not the not-found error) when no suspension is
registered under t. -/
theorem C7_handleResume_success_or_einval (s : EWBState) (t : Nat)
    (hnodup : (s.suspended_map.map Prod.fst).Nodup) :
    (∀ cookie, alookup t s.suspended_map = some cookie →
        EWB_Engine.handleResume s t =
          (.ENGINE_SUCCESS,
           { s with suspended_map := aerase t s.suspended_map,
                    pending_io_ops := s.pending_io_ops ++ [cookie] }) ∧
        alookup t (EWB_Engine.handleResume s t).2.suspended_map = none) ∧
    (alookup t s.suspended_map = none →
        EWB_Engine.handleResume s t = (.ENGINE_EINVAL, s)) := by
  constructor
  · intro cookie h
    constructor
    · simp [EWB_Engine.handleResume, EWB_Engine.resume, h,
            EWB_Engine.schedule_notification]
    · simp [EWB_Engine.handleResume, EWB_Engine.resume, h,
            EWB_Engine.schedule_notification]
      exact alookup_aerase_self hnodup
  · intro h
    simp [EWB_Engine.handleResume, EWB_Engine.resume, h]

/-- C7 witness: token 7 registered for cookie 5 resumes with success and one
notification; token 9 with nothing registered yields ENGINE_EINVAL. -/
theorem C7_witness :
    EWB_Engine.handleResume ⟨[], [(7, 5)], [], []⟩ 7 =
      (.ENGINE_SUCCESS, ⟨[], [], [5], []⟩) ∧
    EWB_Engine.handleResume ⟨[], [], [], []⟩ 9 = (.ENGINE_EINVAL, ⟨[], [], [], []⟩) := by
  have h1 := C7_handleResume_success_or_einval ⟨[], [(7, 5)], [], []⟩ 7 (by decide)
  have h2 := C7_handleResume_success_or_einval ⟨[], [], [], []⟩ 9 (by decide)
  exact ⟨((h1.1 5 (by decide)).1).trans (by decide), h2.2 (by decide)⟩

/-- C8: on a non-suspended cookie, when the registry holds an entry for the
connection id storing a different cookie, the gate drops the entry and
passes through: no injection, the caller's error variable untouched, the
pending queue unchanged, and afterwards the id has no registry entry. -/
theorem C8_cookie_mismatch_evicts
    (s : EWBState) (cmd : Cmd) (id cookie draw : Nat) (err : ENGINE_ERROR_CODE)
    (entry : Nat × FaultInjectMode)
    (hns : EWB_Engine.is_connection_suspended s cookie = false)
    (hlook : alookup id s.connection_map = some entry)
    (hne : entry.1 ≠ cookie)
    (hnodup : (s.connection_map.map Prod.fst).Nodup) :
    EWB_Engine.should_inject_error s cmd id cookie draw err =
      (false, err, { s with connection_map := aerase id s.connection_map }) ∧
    alookup id
        (EWB_Engine.should_inject_error s cmd id cookie draw err).2.2.connection_map =
      none := by
  constructor
  · simp [EWB_Engine.should_inject_error, hns, hlook, hne]
  · simp [EWB_Engine.should_inject_error, hns, hlook, hne]
    exact alookup_aerase_self hnodup

/-- C8 witness: id 1 stores cookie 4 with an injector, caller presents
cookie 5: the gate passes through and erases the entry. -/
theorem C8_witness :
    EWB_Engine.should_inject_error
        ⟨[(1, (4, .ErrOnNextN .ENGINE_EWOULDBLOCK 2))], [], [], []⟩
        Cmd.GET 1 5 0 .ENGINE_SUCCESS =
      (false, .ENGINE_SUCCESS, ⟨[], [], [], []⟩) ∧
    alookup 1
        (EWB_Engine.should_inject_error
            ⟨[(1, (4, .ErrOnNextN .ENGINE_EWOULDBLOCK 2))], [], [], []⟩
            Cmd.GET 1 5 0 .ENGINE_SUCCESS).2.2.connection_map = none := by
  have h := C8_cookie_mismatch_evicts
    ⟨[(1, (4, .ErrOnNextN .ENGINE_EWOULDBLOCK 2))], [], [], []⟩
    Cmd.GET 1 5 0 .ENGINE_SUCCESS (4, .ErrOnNextN .ENGINE_EWOULDBLOCK 2)
    (by decide) (by decide) (by decide) (by decide)
  exact ⟨h.1.trans (by decide), h.2⟩

/-- Steps of a started synthetic stream with remaining count c: the first c
steps emit the canned mutation, every later step returns would-block. -/
theorem runSteps_started (s : EWBState) (cookie : Nat) (b : Bool) (c k : Nat)
    (h : alookup cookie s.dcp_stream = some (true, c)) :
    runSteps s cookie b k =
      (List.range k).map
        (fun i => if i < c then StepResult.mutation else StepResult.wouldBlock) := by
  induction k generalizing s c with
  | zero => rfl
  | succ m ih =>
      rw [range_map_succ]
      by_cases hc : 0 < c
      · have hstep : EWB_Engine.step s cookie b =
            (.mutation, { s with dcp_stream := aupdate cookie (true, c - 1) s.dcp_stream }) := by
          simp [EWB_Engine.step, h, hc]
        simp only [runSteps, hstep]
        congr 1
        · simp [hc]
        · rw [ih _ _ (alookup_aupdate_self _ h)]
          apply List.map_congr_left
          intro a _
          split_ifs with h1 h2 <;> first | rfl | (exfalso; omega)
      · have hstep : EWB_Engine.step s cookie b = (.wouldBlock, s) := by
          simp [EWB_Engine.step, h, hc]
        simp only [runSteps, hstep]
        congr 1
        · simp [hc]
        · rw [ih s c h]
          apply List.map_congr_left
          intro a _
          split_ifs with h1 h2 <;> first | rfl | (exfalso; omega)

/-- C9: for a cookie holding a synthetic stream entry (started?, count c):
stream-request with start sequence 1 replies rollback with rollback
sequence 0 and leaves the entry (and the whole state) unchanged; any other
start sequence marks the stream started and replies success; step before
the stream is started returns would-block; once started, exactly the first
c steps emit the canned mutation and every later step returns would-block. -/
theorem C9_synthetic_stream
    (s : EWBState) (cookie : Nat) (st : Bool) (c : Nat) (b : Bool) (k : Nat)
    (hlook : alookup cookie s.dcp_stream = some (st, c)) :
    (EWB_Engine.stream_req s cookie 1 b = (.ENGINE_ROLLBACK, some 0, s)) ∧
    (∀ seqno : Nat, seqno ≠ 1 →
        EWB_Engine.stream_req s cookie seqno b =
          (.ENGINE_SUCCESS, none,
           { s with dcp_stream := aupdate cookie (true, c) s.dcp_stream })) ∧
    (st = false → EWB_Engine.step s cookie b = (.wouldBlock, s)) ∧
    (st = true →
        runSteps s cookie b k =
          (List.range k).map
            (fun i => if i < c then StepResult.mutation else StepResult.wouldBlock)) := by
  refine ⟨?_, ?_, ?_, ?_⟩
  · simp [EWB_Engine.stream_req, hlook]
  · intro seqno hs
    simp [EWB_Engine.stream_req, hlook, hs]
  · intro hst
    subst hst
    simp [EWB_Engine.step, hlook]
  · intro hst
    subst hst
    exact runSteps_started s cookie b c k hlook

/-- C9 witness: the spec's scenario 6 — a synthetic stream with count 3,
started: request with start sequence 1 rolls back to 0; with start
sequence 0 it succeeds; 4 steps yield 3 canned mutations then would-block. -/
theorem C9_witness :
    EWB_Engine.stream_req ⟨[], [], [], [(9, (true, 3))]⟩ 9 1 false =
      (.ENGINE_ROLLBACK, some 0, ⟨[], [], [], [(9, (true, 3))]⟩) ∧
    EWB_Engine.stream_req ⟨[], [], [], [(9, (true, 3))]⟩ 9 0 false =
      (.ENGINE_SUCCESS, none, ⟨[], [], [], [(9, (true, 3))]⟩) ∧
    runSteps ⟨[], [], [], [(9, (true, 3))]⟩ 9 false 4 =
      [.mutation, .mutation, .mutation, .wouldBlock] := by
  have h := C9_synthetic_stream ⟨[], [], [], [(9, (true, 3))]⟩ 9 true 3 false 4 (by decide)
  refine ⟨h.1, ?_, ?_⟩
  · exact (h.2.1 0 (by decide)).trans (by decide)
  · exact (h.2.2.2 rfl).trans (by decide)

/-- C10: on a suspended cookie, the gate returns before consulting the
injector registry: the entire state — connection map, every installed
injector's local state, the suspension map and the pending queue — is
exactly the state before the call, and no entry is evicted even if its
stored cookie mismatches the caller's. -/
theorem C10_suspended_gate_frame
    (s : EWBState) (cmd : Cmd) (id cookie draw : Nat) (err : ENGINE_ERROR_CODE)
    (h : EWB_Engine.is_connection_suspended s cookie = true) :
    (EWB_Engine.should_inject_error s cmd id cookie draw err).2.2 = s := by
  simp [EWB_Engine.should_inject_error, h]

/-- C10 witness: cookie 5 is suspended while id 1 stores a mismatching
cookie 4 with a counting injector; the gate leaves the stale entry and the
injector count untouched. -/
theorem C10_witness :
    (EWB_Engine.should_inject_error
        ⟨[(1, (4, .ErrOnNextN .ENGINE_EWOULDBLOCK 2))], [(7, 5)], [], []⟩
        Cmd.GET 1 5 0 .ENGINE_SUCCESS).2.2 =
      ⟨[(1, (4, .ErrOnNextN .ENGINE_EWOULDBLOCK 2))], [(7, 5)], [], []⟩ :=
  C10_suspended_gate_frame
    ⟨[(1, (4, .ErrOnNextN .ENGINE_EWOULDBLOCK 2))], [(7, 5)], [], []⟩
    Cmd.GET 1 5 0 .ENGINE_SUCCESS (by decide)
